import Mathlib

/-!
Verification development for the RACV quote MCP server
(session store `src/automation/session-manager.ts`, quote flow
`src/automation/quote-flow.ts`, and the MCP tool handlers of the two
server entry files).

The browser, its context and its page are external resources; their
visible effects (whether `context.close()` / `browser.close()` were
called, and whether they threw) are modelled explicitly.  Time
(`Date.now()`) is passed in as a `Nat` of milliseconds.  The session
registry (`const sessions = new Map<string, QuoteSession>()`) is
modelled as an association list with unique keys — the `Map` guarantees
key uniqueness, so `Map.delete` is modelled as removal of every entry
carrying the key.
-/

namespace Racv

/-- Lifecycle states of a session, from `QuoteState` in `src/types.ts`. -/
inductive QuoteState where
  | initialized
  | car_found
  | car_details_filled
  | driver_details_filled
  | quote_ready
  | error
deriving Repr, DecidableEq

/-- A stored session, from `QuoteSession` in `src/types.ts`.  The
`browser`/`context`/`page` handles are external resources and carry no
observable state of their own here; teardown effects on them are
modelled in `destroySession`. -/
structure QuoteSession where
  state : QuoteState
  createdAt : Nat
  lastActivity : Nat
deriving Repr, DecidableEq

/-- The process-wide registry `const sessions = new Map<...>()` of
`session-manager.ts`, as an association list in insertion order. -/
abbrev Store := List (String × QuoteSession)

/-- `SESSION_TIMEOUT_MS = 10 * 60 * 1000` from `session-manager.ts`. -/
def SESSION_TIMEOUT_MS : Nat := 10 * 60 * 1000

/-- In-place mutation of the session object stored under a key (the JS
`Map` stores object references, so `session.lastActivity = ...` updates
the stored entry).  Only the first occurrence is touched; keys are
unique in a `Map`. -/
def modifyFirst (sessionId : String) (f : QuoteSession → QuoteSession) : Store → Store
  | [] => []
  | (i, s) :: rest =>
    if i = sessionId then (i, f s) :: rest else (i, s) :: modifyFirst sessionId f rest

/-- `sessions.delete(sessionId)` — on a unique-key map this removes
every entry carrying the key. -/
def removeSession (sessionId : String) (st : Store) : Store :=
  st.filter fun p => decide (p.1 ≠ sessionId)

/-- `getSession` from `session-manager.ts`: look up by id; on a hit set
`session.lastActivity = Date.now()`.  Returns the (refreshed) session
and the store after the mutation. -/
def getSession (now : Nat) (sessionId : String) (st : Store) : Option QuoteSession × Store :=
  match st.lookup sessionId with
  | some s =>
    (some { s with lastActivity := now },
      modifyFirst sessionId (fun t => { t with lastActivity := now }) st)
  | none => (none, st)

/-- `updateSessionState` from `session-manager.ts`: on a hit set both
`session.state = state` and `session.lastActivity = Date.now()`. -/
def updateSessionState (now : Nat) (sessionId : String) (state : QuoteState)
    (st : Store) : Store :=
  match st.lookup sessionId with
  | some _ =>
    modifyFirst sessionId (fun t => { t with state := state, lastActivity := now }) st
  | none => st

/-- `getActiveSessions` from `session-manager.ts`: `sessions.size`. -/
def getActiveSessions (st : Store) : Nat :=
  st.length

/-- Environment of one `destroySession` call: whether
`session.context.close()` and `session.browser.close()` would throw. -/
structure TeardownFaults where
  contextCloseThrows : Bool
  browserCloseThrows : Bool
deriving Repr, DecidableEq

/-- The body of the `try` block of `destroySession`:
`await session.context.close(); await session.browser.close();`.
Returns the outcome of the block together with which of the two close
calls were actually issued (a throw in `context.close()` means
`browser.close()` is never reached). -/
def tryCloseBody (f : TeardownFaults) : Except String Unit × Bool × Bool :=
  if f.contextCloseThrows then (Except.error "context close failed", true, false)
  else if f.browserCloseThrows then (Except.error "browser close failed", true, true)
  else (Except.ok (), true, true)

/-- Observable outcome of a `destroySession` call. -/
structure DestroyResult where
  result : Except String Unit
  store : Store
  contextCloseCalled : Bool
  browserCloseCalled : Bool
deriving Repr

/-- `destroySession` from `session-manager.ts`: if the id is registered,
run the `try { context.close(); browser.close() } catch {}` block (the
`catch` swallows any exception, so the call itself always returns
normally) and then `sessions.delete(sessionId)`; on an unknown id do
nothing at all. -/
def destroySession (f : TeardownFaults) (sessionId : String) (st : Store) : DestroyResult :=
  match st.lookup sessionId with
  | some _ =>
    let closes := tryCloseBody f
    { result := Except.ok ()
      store := removeSession sessionId st
      contextCloseCalled := closes.2.1
      browserCloseCalled := closes.2.2 }
  | none =>
    { result := Except.ok ()
      store := st
      contextCloseCalled := false
      browserCloseCalled := false }

/-- `createSession` from `session-manager.ts`, after a successful
`launchBrowser()`: register a fresh session in state `initialized` with
both timestamps set to `Date.now()`.  `Map.set` appends in insertion
order.  The fresh uuid is passed in as `newId`. -/
def createSessionStore (now : Nat) (newId : String) (st : Store) : QuoteSession × Store :=
  let s : QuoteSession := { state := QuoteState.initialized, createdAt := now, lastActivity := now }
  (s, st ++ [(newId, s)])

/-- One step of the idle-reaper loop body of `session-manager.ts`:
`if (now - session.lastActivity > SESSION_TIMEOUT_MS) await destroySession(id)`.
JS number subtraction of a later timestamp is negative, never above the
timeout, which truncated `Nat` subtraction reproduces. -/
def sweepStep (f : TeardownFaults) (now : Nat) (acc : Store) (p : String × QuoteSession) : Store :=
  if SESSION_TIMEOUT_MS < now - p.2.lastActivity then (destroySession f p.1 acc).store else acc

/-- The `setInterval(..., 60_000)` sweep body of `session-manager.ts`:
iterate over the entries of the map (insertion order; deleting the
visited entry is safe in a JS `for...of` over a `Map`) and destroy each
expired session. -/
def sweepStore (f : TeardownFaults) (now : Nat) (st : Store) : Store :=
  st.foldl (sweepStep f now) st

/-- Survival predicate accumulated by a sweep over the entry list `l`:
a stored entry keeps its place unless some visited entry is expired and
shares its key. -/
def surviveKey (now : Nat) (l : Store) (q : String × QuoteSession) : Bool :=
  !(l.any fun p => decide (SESSION_TIMEOUT_MS < now - p.2.lastActivity) && decide (p.1 = q.1))

/-! ### MCP tool handlers

The two server entry files of the repository register the same four
tools; they differ in their `catch` blocks.  In the newer file
(`part_001`) every step handler's `catch` runs
`await destroySession(sessionId).catch(() => {})` before reporting the
error; in the older file (`part_000`) the `catch` blocks of
`fill_car_details`, `fill_driver_details` and `get_quotes` report the
error without destroying the session.  The outcome of the browser-step
call (`fillCarDetails` / `fillDriverDetails` / `extractQuoteResults` /
`findCarByRego` / `findCarManually`) is supplied as a boolean: `true`
means it returned, `false` means it threw. -/

/-- Handler body shared by `fill_car_details` and `fill_driver_details`
in the newer server file (`part_001`): look the session up (refreshing
`lastActivity`); report an error on a missing session; run the step; on
a throw destroy the session and report the error.  Returns the final
store and the `isError` flag of the response. -/
def stepToolHandlerV1 (f : TeardownFaults) (stepOk : Bool) (now : Nat) (sessionId : String)
    (st : Store) : Store × Bool :=
  match getSession now sessionId st with
  | (none, st1) => (st1, true)
  | (some _, st1) =>
    if stepOk then (st1, false)
    else ((destroySession f sessionId st1).store, true)

/-- Handler body shared by `fill_car_details` and `fill_driver_details`
in the older server file (`part_000`): identical to `stepToolHandlerV1`
except that the `catch` block reports the error without destroying the
session. -/
def stepToolHandlerV0 (stepOk : Bool) (now : Nat) (sessionId : String)
    (st : Store) : Store × Bool :=
  match getSession now sessionId st with
  | (none, st1) => (st1, true)
  | (some _, st1) =>
    if stepOk then (st1, false)
    else (st1, true)

/-- The `get_quotes` handler of the newer server file (`part_001`): on
success the session is destroyed after extraction ("Clean up the
session after extracting quotes"); on a throw the `catch` also destroys
it before reporting the error. -/
def getQuotesHandlerV1 (f : TeardownFaults) (extractOk : Bool) (now : Nat) (sessionId : String)
    (st : Store) : Store × Bool :=
  match getSession now sessionId st with
  | (none, st1) => (st1, true)
  | (some _, st1) =>
    if extractOk then ((destroySession f sessionId st1).store, false)
    else ((destroySession f sessionId st1).store, true)

/-- The `get_quotes` handler of the older server file (`part_000`):
destroys the session on success only; its `catch` leaves the session
registered. -/
def getQuotesHandlerV0 (f : TeardownFaults) (extractOk : Bool) (now : Nat) (sessionId : String)
    (st : Store) : Store × Bool :=
  match getSession now sessionId st with
  | (none, st1) => (st1, true)
  | (some _, st1) =>
    if extractOk then ((destroySession f sessionId st1).store, false)
    else (st1, true)

/-- Arguments of the `start_quote` tool (all optional in its zod
schema). -/
structure StartQuoteArgs where
  rego : Option String
  state : Option String
  year : Option String
  make : Option String
  model : Option String
  bodyType : Option String
deriving Repr, DecidableEq

/-- JS truthiness of an optional string argument (`undefined` and the
empty string are falsy), as tested by `if (rego && state)`. -/
def truthy : Option String → Bool
  | none => false
  | some s => decide (s ≠ "")

/-- Observable outcome of one `start_quote` call: the final store, how
many browsers were launched during the call, whether a session was
registered at any point during the call, and the `isError` flag. -/
structure StartQuoteOutcome where
  store : Store
  launches : Nat
  sessionWasRegistered : Bool
  isError : Bool
deriving Repr, DecidableEq

/-- The `start_quote` handler (both server files): it first runs
`const session = await createSession()` — launching a browser and
registering the session — and only then branches on the supplied
identification mode; with neither mode it destroys the fresh session
and reports an error.  `findOk` is the outcome of the
`findCarByRego`/`findCarManually` call; `destroyOnCatch` distinguishes
the newer file (whose outer `catch` destroys the session) from the
older one (whose `catch` does not). -/
def startQuoteHandler (f : TeardownFaults) (destroyOnCatch : Bool) (now : Nat) (newId : String)
    (findOk : Bool) (a : StartQuoteArgs) (st : Store) : StartQuoteOutcome :=
  let created := createSessionStore now newId st
  let st1 := created.2
  if truthy a.rego && truthy a.state then
    if findOk then
      { store := st1, launches := 1, sessionWasRegistered := true, isError := false }
    else
      { store := if destroyOnCatch then (destroySession f newId st1).store else st1
        launches := 1, sessionWasRegistered := true, isError := true }
  else if truthy a.year && truthy a.make && truthy a.model && truthy a.bodyType then
    if findOk then
      { store := st1, launches := 1, sessionWasRegistered := true, isError := false }
    else
      { store := if destroyOnCatch then (destroySession f newId st1).store else st1
        launches := 1, sessionWasRegistered := true, isError := true }
  else
    { store := (destroySession f newId st1).store
      launches := 1, sessionWasRegistered := true, isError := true }

/-! ### The bounded-retry continue action (`clickContinueAndWait`)

`waitForText` polls the rendered page; whether the landmark text shows
up during the poll window of attempt `i` is supplied by the environment
oracle `foundOn i`.  The loop of `quote-flow.ts` runs
`for (attempt = 1; attempt <= maxRetries; attempt++)`, clicking once
per iteration, and throws after the loop. -/

/-- Loop of `clickContinueAndWait`, carrying the 1-based attempt
counter, the remaining iteration budget and the number of clicks issued
so far.  Returns the loop outcome (`ok` with the succeeding attempt
number, or the thrown error) together with the total click count. -/
def clickLoop (foundOn : Nat → Bool) : Nat → Nat → Nat → Except String Nat × Nat
  | _, 0, clicks => (Except.error "Page did not advance", clicks)
  | attempt, r + 1, clicks =>
    if foundOn attempt then (Except.ok attempt, clicks + 1)
    else clickLoop foundOn (attempt + 1) r (clicks + 1)

/-- `clickContinueAndWait(page, targetText, maxRetries)` from
`quote-flow.ts`, with `maxRetries` passed explicitly (the source
default is 3). -/
def clickContinueAndWait (foundOn : Nat → Bool) (maxRetries : Nat) : Except String Nat × Nat :=
  clickLoop foundOn 1 maxRetries 0

/-! ### Text extraction (`extractProductsFromText`)

The four field regexes of `quote-flow.ts` are

  `/\$([\d,]+\.?\d*)\s*\/Yearly/`
  `/\$([\d,]+\.?\d*)\s*\/Monthly/`
  `/\(\$([\d,]+\.?\d*)\s*over 12 months\)/`
  `/Save \$([\d,]+\.?\d*)/`

Each is a sequence of literals and single-character-class pieces around
one capture group, so a small backtracking engine with JS semantics
(leftmost match position, greedy quantifiers with backtracking) embeds
them faithfully.  Page text is a list of characters. -/

/-- JS `\d`. -/
def jsDigit (c : Char) : Bool := '0' ≤ c && c ≤ '9'

/-- JS `[\d,]`. -/
def digitComma (c : Char) : Bool := jsDigit c || c == ','

/-- JS `\s`, restricted to the ASCII whitespace that can occur in
`document.body.innerText`. -/
def jsSpace (c : Char) : Bool :=
  c == ' ' || c == '\t' || c == '\n' || c == '\r' || c == '\x0B' || c == '\x0C'

/-- One piece of a pattern: a literal string, or a greedy `*`/`+`/`?`
quantifier over a single-character class. -/
inductive PatItem where
  | lit : List Char → PatItem
  | star : (Char → Bool) → PatItem
  | plus : (Char → Bool) → PatItem
  | opt : (Char → Bool) → PatItem

/-- Length of the maximal run of characters satisfying `p` at the head
of the input. -/
def runLength (p : Char → Bool) : List Char → Nat
  | [] => 0
  | c :: cs => if p c then runLength p cs + 1 else 0

/-- Backtracking helper: try `g i` for `i = hi, hi-1, ..., lo` and
return the first success (greedy quantifiers try the longest
consumption first). -/
def tryDrops {α : Type} (g : Nat → Option α) (lo : Nat) : Nat → Option α
  | 0 => if lo = 0 then g 0 else none
  | i + 1 =>
    if i + 1 < lo then none
    else
      match g (i + 1) with
      | some r => some r
      | none => tryDrops g lo i

/-- Match a sequence of pattern pieces at the head of the input, with
full backtracking, passing every possible remainder to the continuation
`k` in the order a JS regex engine would (greedy first). -/
def matchItems {α : Type} : List PatItem → List Char → (List Char → Option α) → Option α
  | [], cs, k => k cs
  | PatItem.lit l :: rest, cs, k =>
    if l.isPrefixOf cs then matchItems rest (cs.drop l.length) k else none
  | PatItem.star p :: rest, cs, k =>
    tryDrops (fun i => matchItems rest (cs.drop i) k) 0 (runLength p cs)
  | PatItem.plus p :: rest, cs, k =>
    tryDrops (fun i => matchItems rest (cs.drop i) k) 1 (runLength p cs)
  | PatItem.opt p :: rest, cs, k =>
    match cs with
    | [] => matchItems rest [] k
    | c :: cs1 =>
      if p c then
        match matchItems rest cs1 k with
        | some r => some r
        | none => matchItems rest (c :: cs1) k
      else matchItems rest (c :: cs1) k

/-- A pattern with exactly one capture group: the pieces before the
group, the group's pieces, and the pieces after it. -/
structure CapPat where
  pre : List PatItem
  grp : List PatItem
  post : List PatItem

/-- Attempt a match anchored at the head of `cs`; on success return the
text captured by the group. -/
def matchCapAt (pat : CapPat) (cs : List Char) : Option (List Char) :=
  matchItems pat.pre cs fun cs1 =>
    matchItems pat.grp cs1 fun cs2 =>
      matchItems pat.post cs2 fun _ =>
        some (cs1.take (cs1.length - cs2.length))

/-- JS `String.prototype.match` with a non-global regex: try every
start position from the left and return the first match's capture. -/
def execPat (pat : CapPat) : List Char → Option (List Char)
  | [] => matchCapAt pat []
  | c :: cs =>
    match matchCapAt pat (c :: cs) with
    | some r => some r
    | none => execPat pat cs

/-- The capture group `([\d,]+\.?\d*)` shared by all four price
regexes. -/
def priceGroup : List PatItem :=
  [PatItem.plus digitComma, PatItem.opt (fun c => c == '.'), PatItem.star jsDigit]

/-- `/\$([\d,]+\.?\d*)\s*\/Yearly/`. -/
def yearlyPat : CapPat :=
  { pre := [PatItem.lit ['$']], grp := priceGroup
    post := [PatItem.star jsSpace, PatItem.lit "/Yearly".toList] }

/-- `/\$([\d,]+\.?\d*)\s*\/Monthly/`. -/
def monthlyPat : CapPat :=
  { pre := [PatItem.lit ['$']], grp := priceGroup
    post := [PatItem.star jsSpace, PatItem.lit "/Monthly".toList] }

/-- `/\(\$([\d,]+\.?\d*)\s*over 12 months\)/`. -/
def totalPat : CapPat :=
  { pre := [PatItem.lit "($".toList], grp := priceGroup
    post := [PatItem.star jsSpace, PatItem.lit "over 12 months)".toList] }

/-- `/Save \$([\d,]+\.?\d*)/`. -/
def savingPat : CapPat :=
  { pre := [PatItem.lit "Save $".toList], grp := priceGroup, post := [] }

/-- JS `text.indexOf(name)`: index of the first occurrence of `name`
as a contiguous substring, `none` for `-1`. -/
def indexOfSub (name : List Char) : List Char → Option Nat
  | [] => if name.isPrefixOf ([] : List Char) then some 0 else none
  | c :: cs =>
    if name.isPrefixOf (c :: cs) then some 0
    else (indexOfSub name cs).map (fun i => i + 1)

/-- `ProductQuote` from `src/types.ts`. -/
structure ProductQuote where
  name : List Char
  yearlyPrice : List Char
  monthlyPrice : List Char
  totalOver12Months : List Char
  yearlySaving : Option (List Char)
  features : List (List Char)
deriving Repr, DecidableEq

/-- Body of the `for (const name of productNames)` loop of
`extractProductsFromText`: find the name's first occurrence (skip when
absent), take the 500-character window, match the four price regexes in
it independently, and push a quote exactly when the yearly price
matched. -/
def extractOne (text name : List Char) : Option ProductQuote :=
  match indexOfSub name text with
  | none => none
  | some idx =>
    let chunk := (text.drop idx).take 500
    let yearly := execPat yearlyPat chunk
    let monthly := execPat monthlyPat chunk
    let total := execPat totalPat chunk
    let saving := execPat savingPat chunk
    match yearly with
    | none => none
    | some y =>
      some
        { name := name
          yearlyPrice := '$' :: y
          monthlyPrice := match monthly with | some m => '$' :: m | none => "N/A".toList
          totalOver12Months := match total with | some t => '$' :: t | none => "N/A".toList
          yearlySaving := saving.map (fun s => '$' :: s)
          features := [] }

/-- `extractProductsFromText` from `quote-flow.ts`: process the product
names in order, collecting the emitted quotes. -/
def extractProductsFromText (text : List Char) (productNames : List (List Char)) :
    List ProductQuote :=
  productNames.filterMap (extractOne text)

/-- The comprehensive-tab product names passed by
`extractQuoteResults`. -/
def comprehensiveNames : List (List Char) :=
  ["Comprehensive".toList, "Complete Care".toList]

/-- The third-party-tab product names passed by
`extractQuoteResults`. -/
def thirdPartyNames : List (List Char) :=
  ["Third Party Property Damage".toList, "Third Party Fire & Theft".toList]

/-- A page text realising the extraction test vector of the spec. -/
def exampleQuoteText : List Char :=
  "Comprehensive Premium cover $120.50/Yearly $10.50/Monthly ($120.50 over 12 months) Save $15.00".toList

/-- A page text that also contains every marker of the spec's test
vector after "Comprehensive", but with an additional earlier yearly
price inside the window. -/
def strayQuoteText : List Char :=
  "Comprehensive $9.00/Yearly $120.50/Yearly $10.50/Monthly ($120.50 over 12 months) Save $15.00".toList

/-! ### Store lemmas -/

theorem lookup_cons_self (k : String) (v : QuoteSession) (rest : Store) :
    List.lookup k ((k, v) :: rest) = some v := by
  simp [List.lookup]

theorem lookup_cons_ne (a k : String) (v : QuoteSession) (rest : Store) (h : a ≠ k) :
    List.lookup a ((k, v) :: rest) = List.lookup a rest := by
  simp [List.lookup, beq_eq_false_iff_ne.mpr h]

theorem lookup_removeSession_self (sessionId : String) (st : Store) :
    (removeSession sessionId st).lookup sessionId = none := by
  induction st with
  | nil => rfl
  | cons p rest ih =>
    cases p with
    | mk k v =>
      by_cases h : k = sessionId
      · simpa [removeSession, List.filter, h] using ih
      · rw [show removeSession sessionId ((k, v) :: rest) =
            (k, v) :: removeSession sessionId rest by simp [removeSession, List.filter, h],
          lookup_cons_ne sessionId k v _ (Ne.symm h)]
        exact ih

theorem lookup_removeSession_other (sessionId other : String) (st : Store)
    (hne : other ≠ sessionId) :
    (removeSession sessionId st).lookup other = st.lookup other := by
  induction st with
  | nil => rfl
  | cons p rest ih =>
    cases p with
    | mk k v =>
      by_cases h : k = sessionId
      · have hok : other ≠ k := h ▸ hne
        rw [show removeSession sessionId ((k, v) :: rest) =
            removeSession sessionId rest by simp [removeSession, List.filter, h],
          lookup_cons_ne other k v rest hok]
        exact ih
      · by_cases h2 : other = k
        · subst h2
          rw [show removeSession sessionId ((other, v) :: rest) =
              (other, v) :: removeSession sessionId rest by simp [removeSession, List.filter, h],
            lookup_cons_self, lookup_cons_self]
        · rw [show removeSession sessionId ((k, v) :: rest) =
              (k, v) :: removeSession sessionId rest by simp [removeSession, List.filter, h],
            lookup_cons_ne other k v _ h2, lookup_cons_ne other k v rest h2]
          exact ih

theorem lookup_modifyFirst_self (sessionId : String) (f : QuoteSession → QuoteSession)
    (st : Store) :
    (modifyFirst sessionId f st).lookup sessionId = (st.lookup sessionId).map f := by
  induction st with
  | nil => rfl
  | cons p rest ih =>
    cases p with
    | mk k v =>
      by_cases h : k = sessionId
      · subst h
        simp [modifyFirst, lookup_cons_self]
      · rw [show modifyFirst sessionId f ((k, v) :: rest) =
            (k, v) :: modifyFirst sessionId f rest by simp [modifyFirst, h],
          lookup_cons_ne sessionId k v _ (Ne.symm h),
          lookup_cons_ne sessionId k v rest (Ne.symm h)]
        exact ih

theorem mapfst_modifyFirst (sessionId : String) (f : QuoteSession → QuoteSession)
    (st : Store) :
    (modifyFirst sessionId f st).map Prod.fst = st.map Prod.fst := by
  induction st with
  | nil => rfl
  | cons p rest ih =>
    cases p with
    | mk k v =>
      by_cases h : k = sessionId
      · simp [modifyFirst, h]
      · simp [modifyFirst, h, ih]

theorem lookup_eq_none_of_not_key (sessionId : String) (st : Store)
    (h : sessionId ∉ st.map Prod.fst) :
    st.lookup sessionId = none := by
  induction st with
  | nil => rfl
  | cons p rest ih =>
    cases p with
    | mk k v =>
      simp only [List.map_cons, List.mem_cons, not_or] at h
      rw [lookup_cons_ne sessionId k v rest h.1]
      exact ih h.2

theorem not_key_of_lookup_eq_none (sessionId : String) (st : Store)
    (h : st.lookup sessionId = none) :
    sessionId ∉ st.map Prod.fst := by
  induction st with
  | nil => simp
  | cons p rest ih =>
    cases p with
    | mk k v =>
      by_cases hk : sessionId = k
      · subst hk
        rw [lookup_cons_self] at h
        exact absurd h (by simp)
      · rw [lookup_cons_ne sessionId k v rest hk] at h
        simp only [List.map_cons, List.mem_cons, not_or]
        exact ⟨hk, ih h⟩

theorem removeSession_of_absent (sessionId : String) (st : Store)
    (h : st.lookup sessionId = none) :
    removeSession sessionId st = st := by
  apply List.filter_eq_self.mpr
  intro p hp
  have hk := not_key_of_lookup_eq_none sessionId st h
  simp only [decide_eq_true_eq]
  intro hcontra
  exact hk (hcontra ▸ List.mem_map_of_mem Prod.fst hp)

theorem destroySession_store_eq (f : TeardownFaults) (sessionId : String) (st : Store) :
    (destroySession f sessionId st).store = removeSession sessionId st := by
  unfold destroySession
  cases hl : st.lookup sessionId with
  | some s => rfl
  | none => simpa using (removeSession_of_absent sessionId st hl).symm

theorem lookup_filter_pos (sessionId : String) (s : QuoteSession)
    (p : String × QuoteSession → Bool) (st : Store)
    (hl : st.lookup sessionId = some s) (hp : p (sessionId, s) = true) :
    (st.filter p).lookup sessionId = some s := by
  induction st with
  | nil => simp [List.lookup] at hl
  | cons q rest ih =>
    cases q with
    | mk k v =>
      by_cases hk : sessionId = k
      · subst hk
        rw [lookup_cons_self] at hl
        cases hl
        simp [List.filter, hp, lookup_cons_self]
      · rw [lookup_cons_ne sessionId k v rest hk] at hl
        by_cases hq : p (k, v) = true
        · rw [show ((k, v) :: rest).filter p = (k, v) :: rest.filter p by simp [List.filter, hq],
            lookup_cons_ne sessionId k v _ hk]
          exact ih hl
        · rw [show ((k, v) :: rest).filter p = rest.filter p by
            simp [List.filter, Bool.eq_false_iff.mpr hq]]
          exact ih hl

theorem lookup_filter_neg (sessionId : String) (s : QuoteSession)
    (p : String × QuoteSession → Bool) (st : Store)
    (hnd : (st.map Prod.fst).Nodup)
    (hl : st.lookup sessionId = some s) (hp : p (sessionId, s) = false) :
    (st.filter p).lookup sessionId = none := by
  induction st with
  | nil => simp [List.lookup] at hl
  | cons q rest ih =>
    cases q with
    | mk k v =>
      simp only [List.map_cons, List.nodup_cons] at hnd
      by_cases hk : sessionId = k
      · subst hk
        rw [lookup_cons_self] at hl
        cases hl
        rw [show ((sessionId, s) :: rest).filter p = rest.filter p by
          simp [List.filter, hp]]
        apply lookup_eq_none_of_not_key
        intro hmem
        apply hnd.1
        rcases List.mem_map.mp hmem with ⟨y, hy, hxy⟩
        exact hxy ▸ List.mem_map_of_mem Prod.fst (List.mem_of_mem_filter hy)
      · rw [lookup_cons_ne sessionId k v rest hk] at hl
        by_cases hq : p (k, v) = true
        · rw [show ((k, v) :: rest).filter p = (k, v) :: rest.filter p by simp [List.filter, hq],
            lookup_cons_ne sessionId k v _ hk]
          exact ih hnd.2 hl
        · rw [show ((k, v) :: rest).filter p = rest.filter p by
            simp [List.filter, Bool.eq_false_iff.mpr hq]]
          exact ih hnd.2 hl

/-! ### Sweep lemmas -/

theorem foldl_sweepStep (f : TeardownFaults) (now : Nat) (l : Store) :
    ∀ acc : Store, l.foldl (sweepStep f now) acc = acc.filter (surviveKey now l) := by
  induction l with
  | nil =>
    intro acc
    have : surviveKey now [] = fun _ => true := funext fun a => rfl
    simp [this, List.filter_true]
  | cons p l ih =>
    intro acc
    rw [List.foldl_cons, ih]
    by_cases he : SESSION_TIMEOUT_MS < now - p.2.lastActivity
    · have hstep : sweepStep f now acc p = acc.filter fun q => decide (q.1 ≠ p.1) := by
        simp [sweepStep, he, destroySession_store_eq, removeSession]
      rw [hstep, List.filter_filter _ acc]
      apply List.filter_congr
      intro a _
      by_cases hpa : p.1 = a.1
      · have ha : a.1 = p.1 := hpa.symm
        simp [surviveKey, List.any_cons, he, ha]
      · simp [surviveKey, List.any_cons, he, hpa, Ne.symm hpa]
    · have hstep : sweepStep f now acc p = acc := by simp [sweepStep, he]
      rw [hstep]
      apply List.filter_congr
      intro a _
      simp [surviveKey, List.any_cons, he]

theorem sweepStore_eq_filter (f : TeardownFaults) (now : Nat) (st : Store)
    (hnd : (st.map Prod.fst).Nodup) :
    sweepStore f now st =
      st.filter fun p => decide (now - p.2.lastActivity ≤ SESSION_TIMEOUT_MS) := by
  rw [show sweepStore f now st = st.foldl (sweepStep f now) st from rfl,
    foldl_sweepStep f now st st]
  apply List.filter_congr
  intro q hmem
  by_cases hq : SESSION_TIMEOUT_MS < now - q.2.lastActivity
  · have hany : (st.any fun p =>
        decide (SESSION_TIMEOUT_MS < now - p.2.lastActivity) && decide (p.1 = q.1)) = true :=
      List.any_eq_true.mpr ⟨q, hmem, by simp [hq]⟩
    simp [surviveKey, hany, Nat.not_le.mpr hq]
  · have hany : (st.any fun p =>
        decide (SESSION_TIMEOUT_MS < now - p.2.lastActivity) && decide (p.1 = q.1)) = false := by
      rw [List.any_eq_false]
      intro p hp
      simp only [Bool.and_eq_true, decide_eq_true_eq, not_and]
      intro hexp hkey
      have : p = q := List.inj_on_of_nodup_map hnd hp hmem hkey
      exact hq (this ▸ hexp)
    simp [surviveKey, hany, Nat.not_lt.mp hq]

/-! ### Claim theorems -/

/-- Claim C1: after `destroySession(id)` completes, `getSession(id)`
returns absent, and a second `destroySession(id)` is a no-op — it
throws no exception, issues no further close call on the context or the
browser, and leaves the session store unchanged. -/
theorem destroy_get_absent_second_destroy_noop
    (f g : TeardownFaults) (now : Nat) (sessionId : String) (st : Store) :
    (getSession now sessionId (destroySession f sessionId st).store).1 = none
    ∧ (destroySession g sessionId (destroySession f sessionId st).store).result = Except.ok ()
    ∧ (destroySession g sessionId (destroySession f sessionId st).store).store =
        (destroySession f sessionId st).store
    ∧ (destroySession g sessionId (destroySession f sessionId st).store).contextCloseCalled = false
    ∧ (destroySession g sessionId (destroySession f sessionId st).store).browserCloseCalled =
        false := by
  have hnone : ((destroySession f sessionId st).store).lookup sessionId = none := by
    rw [destroySession_store_eq]
    exact lookup_removeSession_self sessionId st
  generalize hst1 : (destroySession f sessionId st).store = st1 at hnone ⊢
  refine ⟨?_, ?_, ?_, ?_, ?_⟩ <;>
    simp [getSession, destroySession, hnone]

/-- Claim C10: `destroySession` on a registered id removes the entry
and returns normally even when teardown throws; when `context.close()`
throws, `browser.close()` is skipped. -/
theorem destroy_swallows_throw_and_skips_browser_close
    (f : TeardownFaults) (sessionId : String) (st : Store) :
    (destroySession f sessionId st).result = Except.ok ()
    ∧ (destroySession f sessionId st).store.lookup sessionId = none
    ∧ ((st.lookup sessionId).isSome = true → f.contextCloseThrows = true →
        (destroySession f sessionId st).contextCloseCalled = true
        ∧ (destroySession f sessionId st).browserCloseCalled = false) := by
  refine ⟨?_, ?_, ?_⟩
  · unfold destroySession
    cases st.lookup sessionId <;> rfl
  · rw [destroySession_store_eq]
    exact lookup_removeSession_self sessionId st
  · intro hs hctx
    cases hl : st.lookup sessionId with
    | none => rw [hl] at hs; simp at hs
    | some s => refine ⟨?_, ?_⟩ <;> simp [destroySession, hl, tryCloseBody, hctx]

/-- Claim C10 witness at a concrete store and a faulty
`context.close`. -/
theorem destroy_swallows_throw_and_skips_browser_close_witness :
    (([(("a" : String),
        ({ state := QuoteState.initialized, createdAt := 0, lastActivity := 0 } :
          QuoteSession))] : Store).lookup "a").isSome = true
    ∧ (⟨true, false⟩ : TeardownFaults).contextCloseThrows = true
    ∧ (destroySession ⟨true, false⟩ "a"
        [("a", { state := QuoteState.initialized, createdAt := 0, lastActivity := 0 })]).contextCloseCalled = true
    ∧ (destroySession ⟨true, false⟩ "a"
        [("a", { state := QuoteState.initialized, createdAt := 0, lastActivity := 0 })]).browserCloseCalled = false := by
  refine ⟨by decide, by decide, ?_⟩
  exact (destroy_swallows_throw_and_skips_browser_close ⟨true, false⟩ "a"
    [("a", { state := QuoteState.initialized, createdAt := 0, lastActivity := 0 })]).2.2
    (by decide) (by decide)

/-- Claim C4 counterexample: `updateSessionState` on a present id also
refreshes `lastActivity` (from 0 to the current time 5 here), so
`getSession` is not the sole operation refreshing it. -/
theorem updateSessionState_refreshes_lastActivity :
    ((updateSessionState 5 "a" QuoteState.car_found
        [("a", { state := QuoteState.initialized, createdAt := 0, lastActivity := 0 })]).lookup
        "a").map QuoteSession.lastActivity ≠
      (([("a", { state := QuoteState.initialized, createdAt := 0, lastActivity := 0 })] :
        Store).lookup "a").map QuoteSession.lastActivity := by
  decide

/-- Claim C4 amended: `getSession` on a present id sets that session's
`lastActivity` to the current time, `updateSessionState` on a present
id also refreshes `lastActivity` alongside the state, and
`destroySession` leaves every other id's entry untouched. -/
theorem activity_refresh_semantics (now : Nat) (sessionId other : String) (q : QuoteState)
    (f : TeardownFaults) (st : Store) :
    (getSession now sessionId st).1 =
        (st.lookup sessionId).map (fun s => { s with lastActivity := now })
    ∧ (getSession now sessionId st).2.lookup sessionId =
        (st.lookup sessionId).map (fun s => { s with lastActivity := now })
    ∧ (updateSessionState now sessionId q st).lookup sessionId =
        (st.lookup sessionId).map (fun s => { s with state := q, lastActivity := now })
    ∧ (other ≠ sessionId →
        (destroySession f sessionId st).store.lookup other = st.lookup other) := by
  refine ⟨?_, ?_, ?_, ?_⟩
  · unfold getSession
    cases st.lookup sessionId <;> rfl
  · unfold getSession
    cases hl : st.lookup sessionId with
    | none => simp [hl]
    | some s => simp [lookup_modifyFirst_self, hl]
  · unfold updateSessionState
    cases hl : st.lookup sessionId with
    | none => simp [hl]
    | some s => simp [lookup_modifyFirst_self, hl]
  · intro h
    rw [destroySession_store_eq]
    exact lookup_removeSession_other sessionId other st h

/-- Claim C4 witness: the amended statement applied at a concrete
two-session store. -/
theorem activity_refresh_semantics_witness :
    ("b" : String) ≠ "a"
    ∧ (destroySession ⟨false, false⟩ "a"
        [("a", { state := QuoteState.initialized, createdAt := 0, lastActivity := 0 }),
         ("b", { state := QuoteState.car_found, createdAt := 1, lastActivity := 2 })]).store.lookup
        "b" =
      ([("a", { state := QuoteState.initialized, createdAt := 0, lastActivity := 0 }),
        ("b", { state := QuoteState.car_found, createdAt := 1, lastActivity := 2 })] :
        Store).lookup "b" := by
  refine ⟨by decide, ?_⟩
  exact (activity_refresh_semantics 5 "a" "b" QuoteState.car_found ⟨false, false⟩
    [("a", { state := QuoteState.initialized, createdAt := 0, lastActivity := 0 }),
     ("b", { state := QuoteState.car_found, createdAt := 1, lastActivity := 2 })]).2.2.2
    (by decide)

/-- Claim C2 counterexample: in the older server file (`part_000`), a
step failure in `fill_car_details`/`fill_driver_details` reports the
error but leaves the session registered — `getSession` on the id still
succeeds afterwards. -/
theorem step_failure_keeps_session_v0 :
    (stepToolHandlerV0 false 1 "a"
        [("a", { state := QuoteState.car_found, createdAt := 0, lastActivity := 0 })]).2 = true
    ∧ ((getSession 2 "a" (stepToolHandlerV0 false 1 "a"
        [("a", { state := QuoteState.car_found, createdAt := 0, lastActivity := 0 })]).1).1).isSome
        = true := by
  decide

/-- Claim C2 amended: in the newer server file (`part_001`), every step
handler (`fill_car_details`, `fill_driver_details`, `get_quotes`)
destroys the session before reporting a step failure, so `getSession`
on that id returns absent afterwards; the handlers of the older file
(`part_000`) leave a failed session registered. -/
theorem step_failure_destroys_session_v1 (f : TeardownFaults) (now after : Nat)
    (sessionId : String) (st : Store) :
    (stepToolHandlerV1 f false now sessionId st).2 = true
    ∧ (getSession after sessionId (stepToolHandlerV1 f false now sessionId st).1).1 = none
    ∧ (getQuotesHandlerV1 f false now sessionId st).2 = true
    ∧ (getSession after sessionId (getQuotesHandlerV1 f false now sessionId st).1).1 = none := by
  cases hl : st.lookup sessionId with
  | none =>
    refine ⟨?_, ?_, ?_, ?_⟩ <;>
      simp [stepToolHandlerV1, getQuotesHandlerV1, getSession, hl]
  | some s =>
    have hnone : ∀ st2 : Store,
        (removeSession sessionId st2).lookup sessionId = none :=
      fun st2 => lookup_removeSession_self sessionId st2
    refine ⟨?_, ?_, ?_, ?_⟩ <;>
      simp [stepToolHandlerV1, getQuotesHandlerV1, getSession, hl,
        destroySession_store_eq, hnone]

/-- Claim C3 counterexample: `start_quote` invoked with no
identification arguments still launches a browser and registers a
session before validating (it destroys the session afterwards), so the
flow does not fail without creating a browser resource. -/
theorem start_quote_no_args_launches_browser :
    (startQuoteHandler ⟨false, false⟩ true 0 "s1" true
        ⟨none, none, none, none, none, none⟩ []).launches = 1
    ∧ (startQuoteHandler ⟨false, false⟩ true 0 "s1" true
        ⟨none, none, none, none, none, none⟩ []).sessionWasRegistered = true := by
  decide

/-- Claim C3 amended: with neither (rego and state) nor (year, make,
model and bodyType) truthy, `start_quote` first creates a session — one
browser launch, one registration — then destroys it and reports an
error; for a fresh id the final store equals the initial one, so no
session remains registered as a result of the call. -/
theorem start_quote_invalid_args_cleanup (f : TeardownFaults) (doc : Bool) (now : Nat)
    (newId : String) (findOk : Bool) (a : StartQuoteArgs) (st : Store)
    (h1 : (truthy a.rego && truthy a.state) = false)
    (h2 : (truthy a.year && truthy a.make && truthy a.model && truthy a.bodyType) = false)
    (hfresh : newId ∉ st.map Prod.fst) :
    (startQuoteHandler f doc now newId findOk a st).isError = true
    ∧ (startQuoteHandler f doc now newId findOk a st).launches = 1
    ∧ (startQuoteHandler f doc now newId findOk a st).store = st := by
  have hlook : st.lookup newId = none := lookup_eq_none_of_not_key newId st hfresh
  have hstore : ∀ s : QuoteSession,
      (destroySession f newId (st ++ [(newId, s)])).store = st := by
    intro s
    rw [destroySession_store_eq]
    have hsplit : removeSession newId (st ++ [(newId, s)]) =
        removeSession newId st ++ removeSession newId [(newId, s)] := by
      unfold removeSession
      exact List.filter_append st [(newId, s)]
    rw [hsplit, removeSession_of_absent newId st hlook,
      show removeSession newId [(newId, s)] = [] by simp [removeSession, List.filter]]
    simp
  refine ⟨?_, ?_, ?_⟩ <;>
    simp [startQuoteHandler, createSessionStore, h1, h2, hstore]

/-- Claim C3 witness: the amended statement applied to an all-`none`
argument record against the empty store. -/
theorem start_quote_invalid_args_cleanup_witness :
    (truthy (none : Option String) && truthy (none : Option String)) = false
    ∧ ("s1" : String) ∉ (([] : Store).map Prod.fst)
    ∧ (startQuoteHandler ⟨false, false⟩ true 0 "s1" true
        ⟨none, none, none, none, none, none⟩ []).isError = true
    ∧ (startQuoteHandler ⟨false, false⟩ true 0 "s1" true
        ⟨none, none, none, none, none, none⟩ []).store = [] := by
  refine ⟨by decide, by simp, ?_, ?_⟩
  · exact (start_quote_invalid_args_cleanup ⟨false, false⟩ true 0 "s1" true
      ⟨none, none, none, none, none, none⟩ [] (by decide) (by decide) (by simp)).1
  · exact (start_quote_invalid_args_cleanup ⟨false, false⟩ true 0 "s1" true
      ⟨none, none, none, none, none, none⟩ [] (by decide) (by decide) (by simp)).2.2

/-- Claim C9: a sweep at time `now` keeps exactly the sessions whose
`lastActivity` lies within the 10-minute timeout; a session refreshed
by `getSession` at `t0` survives any sweep at `t1` with `t1 - t0`
inside the idle window; and a session left untouched is destroyed by
some tick of the one-minute sweep schedule. -/
theorem idle_reaper_semantics (f : TeardownFaults) (now t0 t1 : Nat) (sessionId : String)
    (st : Store) (hnd : (st.map Prod.fst).Nodup) :
    sweepStore f now st =
      st.filter (fun p => decide (now - p.2.lastActivity ≤ SESSION_TIMEOUT_MS))
    ∧ (∀ s, st.lookup sessionId = some s → t1 - t0 ≤ SESSION_TIMEOUT_MS →
        (sweepStore f t1 (getSession t0 sessionId st).2).lookup sessionId =
          some { s with lastActivity := t0 })
    ∧ (∀ s, st.lookup sessionId = some s →
        ∃ k, SESSION_TIMEOUT_MS < 60000 * k - s.lastActivity ∧
          (sweepStore f (60000 * k) st).lookup sessionId = none) := by
  refine ⟨sweepStore_eq_filter f now st hnd, ?_, ?_⟩
  · intro s hs hwin
    have hget : (getSession t0 sessionId st).2 =
        modifyFirst sessionId (fun t => { t with lastActivity := t0 }) st := by
      unfold getSession
      rw [hs]
    rw [hget]
    have hnd2 : ((modifyFirst sessionId (fun t => { t with lastActivity := t0 }) st).map
        Prod.fst).Nodup := by
      rw [mapfst_modifyFirst]
      exact hnd
    rw [sweepStore_eq_filter f t1 _ hnd2]
    have hl2 : (modifyFirst sessionId (fun t => { t with lastActivity := t0 }) st).lookup
        sessionId = some { s with lastActivity := t0 } := by
      rw [lookup_modifyFirst_self, hs]
      rfl
    exact lookup_filter_pos sessionId _ _ _ hl2 (by simp [hwin])
  · intro s hs
    have hmul : s.lastActivity + SESSION_TIMEOUT_MS + 1 ≤
        60000 * (s.lastActivity + SESSION_TIMEOUT_MS + 1) :=
      Nat.le_mul_of_pos_left _ (by omega)
    have harith : SESSION_TIMEOUT_MS <
        60000 * (s.lastActivity + SESSION_TIMEOUT_MS + 1) - s.lastActivity := by omega
    refine ⟨s.lastActivity + SESSION_TIMEOUT_MS + 1, harith, ?_⟩
    rw [sweepStore_eq_filter f _ st hnd]
    apply lookup_filter_neg sessionId s _ st hnd hs
    simp only [decide_eq_false_iff_not, not_le]
    exact harith

/-- Claim C9 witness: the characterization applied to a concrete
one-session store — the session refreshed at time 1 survives a sweep at
time 2, and left untouched it is reaped at some sweep tick. -/
theorem idle_reaper_semantics_witness :
    (([(("a" : String),
        ({ state := QuoteState.initialized, createdAt := 0, lastActivity := 0 } :
          QuoteSession))] : Store).map Prod.fst).Nodup
    ∧ (sweepStore ⟨false, false⟩ 2 (getSession 1 "a"
        [("a", { state := QuoteState.initialized, createdAt := 0, lastActivity := 0 })]).2).lookup
        "a" = some { state := QuoteState.initialized, createdAt := 0, lastActivity := 1 }
    ∧ ∃ k, SESSION_TIMEOUT_MS < 60000 * k -
        ({ state := QuoteState.initialized, createdAt := 0, lastActivity := 0 } :
          QuoteSession).lastActivity ∧
        (sweepStore ⟨false, false⟩ (60000 * k)
          [("a", { state := QuoteState.initialized, createdAt := 0, lastActivity := 0 })]).lookup
          "a" = none := by
  refine ⟨by simp, ?_, ?_⟩
  · exact (idle_reaper_semantics ⟨false, false⟩ 0 1 2 "a"
      [("a", { state := QuoteState.initialized, createdAt := 0, lastActivity := 0 })]
      (by simp)).2.1 _ rfl (by decide)
  · exact (idle_reaper_semantics ⟨false, false⟩ 0 1 2 "a"
      [("a", { state := QuoteState.initialized, createdAt := 0, lastActivity := 0 })]
      (by simp)).2.2 _ rfl

/-- Claim C8: `clickContinueAndWait` issues at most 3 click-then-wait
cycles; it returns successfully at the first attempt whose poll
observes the landmark text, and when no attempt observes it, it throws
after exactly 3 attempts. -/
theorem continue_retry_bounded (foundOn : Nat → Bool) :
    (clickContinueAndWait foundOn 3).2 ≤ 3
    ∧ (∀ i, 1 ≤ i → i ≤ 3 → foundOn i = true →
        (∀ j, 1 ≤ j → j < i → foundOn j = false) →
        (clickContinueAndWait foundOn 3).1 = Except.ok i
        ∧ (clickContinueAndWait foundOn 3).2 = i)
    ∧ ((∀ i, 1 ≤ i → i ≤ 3 → foundOn i = false) →
        (clickContinueAndWait foundOn 3).1 = Except.error "Page did not advance"
        ∧ (clickContinueAndWait foundOn 3).2 = 3) := by
  refine ⟨?_, ?_, ?_⟩
  · cases h1 : foundOn 1 <;> cases h2 : foundOn 2 <;> cases h3 : foundOn 3 <;>
      simp [clickContinueAndWait, clickLoop, h1, h2, h3]
  · intro i hi1 hi3 hfound hmin
    interval_cases i
    · refine ⟨?_, ?_⟩ <;> simp [clickContinueAndWait, clickLoop, hfound]
    · have hf1 : foundOn 1 = false := hmin 1 (by omega) (by omega)
      refine ⟨?_, ?_⟩ <;> simp [clickContinueAndWait, clickLoop, hf1, hfound]
    · have hf1 : foundOn 1 = false := hmin 1 (by omega) (by omega)
      have hf2 : foundOn 2 = false := hmin 2 (by omega) (by omega)
      refine ⟨?_, ?_⟩ <;> simp [clickContinueAndWait, clickLoop, hf1, hf2, hfound]
  · intro hall
    have hf1 : foundOn 1 = false := hall 1 (by omega) (by omega)
    have hf2 : foundOn 2 = false := hall 2 (by omega) (by omega)
    have hf3 : foundOn 3 = false := hall 3 (by omega) (by omega)
    refine ⟨?_, ?_⟩ <;> simp [clickContinueAndWait, clickLoop, hf1, hf2, hf3]

/-- Claim C8 witness: with the landmark first observed on attempt 2,
the action returns attempt 2 after exactly 2 clicks. -/
theorem continue_retry_bounded_witness :
    ((fun i => decide (i = 2)) 2 = true)
    ∧ (clickContinueAndWait (fun i => decide (i = 2)) 3).1 = Except.ok 2
    ∧ (clickContinueAndWait (fun i => decide (i = 2)) 3).2 = 2 := by
  have h := (continue_retry_bounded fun i => decide (i = 2)).2.1 2 (by omega) (by omega)
    (by decide) (fun j hj1 hj2 => by interval_cases j; decide)
  exact ⟨by decide, h.1, h.2⟩

/-- Claim C7: the text-extraction stage is a pure, deterministic
function of the page text — byte-identical texts and the same name list
give identical quote sequences, and the computation touches no store
state. -/
theorem extraction_deterministic (t1 t2 : List Char) (names : List (List Char))
    (h : t1 = t2) :
    extractProductsFromText t1 names = extractProductsFromText t2 names := by
  rw [h]

/-- Claim C7 witness: determinism applied at the concrete example
text. -/
theorem extraction_deterministic_witness :
    exampleQuoteText = exampleQuoteText
    ∧ extractProductsFromText exampleQuoteText comprehensiveNames =
        extractProductsFromText exampleQuoteText comprehensiveNames :=
  ⟨rfl, extraction_deterministic exampleQuoteText exampleQuoteText comprehensiveNames rfl⟩

theorem extractOne_name (text n : List Char) (q : ProductQuote)
    (h : extractOne text n = some q) : q.name = n := by
  unfold extractOne at h
  rcases hidx : indexOfSub n text with _ | idx
  · rw [hidx] at h
    exact Option.noConfusion h
  · rw [hidx] at h
    rcases hy : execPat yearlyPat ((text.drop idx).take 500) with _ | y
    · simp only [hy] at h
      exact Option.noConfusion h
    · simp only [hy, Option.some.injEq] at h
      subst h
      rfl

theorem extractOne_isSome_iff (text n : List Char) :
    (extractOne text n).isSome = true ↔
      ∃ idx, indexOfSub n text = some idx ∧
        (execPat yearlyPat ((text.drop idx).take 500)).isSome = true := by
  unfold extractOne
  rcases hidx : indexOfSub n text with _ | idx
  · simp
  · rcases hy : execPat yearlyPat ((text.drop idx).take 500) with _ | y <;>
      simp [hy]

/-- Claim C5: for every requested product name, extraction emits a
quote bearing that name iff the name occurs in the page text and the
yearly-price pattern matches inside the 500-character window at its
first occurrence; a name that is absent, or whose window has no yearly
price, yields no entry at all. -/
theorem extract_emits_iff_yearly_found (text n : List Char) (names : List (List Char))
    (hn : n ∈ names) :
    ((extractProductsFromText text names).any fun q => decide (q.name = n)) = true ↔
      ∃ idx, indexOfSub n text = some idx ∧
        (execPat yearlyPat ((text.drop idx).take 500)).isSome = true := by
  rw [← extractOne_isSome_iff]
  constructor
  · intro h
    rcases List.any_eq_true.mp h with ⟨q, hq, hname⟩
    rcases List.mem_filterMap.mp hq with ⟨m, _, hqm⟩
    have hqn : q.name = m := extractOne_name text m q hqm
    have hmn : m = n := by
      rw [← hqn]
      exact decide_eq_true_eq.mp hname
    rw [← hmn]
    simp [hqm]
  · intro h
    rcases Option.isSome_iff_exists.mp h with ⟨q, hq⟩
    apply List.any_eq_true.mpr
    refine ⟨q, List.mem_filterMap.mpr ⟨n, hn, hq⟩, ?_⟩
    simp [extractOne_name text n q hq]

/-- Claim C5 witness: the characterization applied to "Comprehensive"
against the concrete example text. -/
theorem extract_emits_iff_yearly_found_witness :
    "Comprehensive".toList ∈ comprehensiveNames
    ∧ (((extractProductsFromText exampleQuoteText comprehensiveNames).any
          fun q => decide (q.name = "Comprehensive".toList)) = true ↔
        ∃ idx, indexOfSub "Comprehensive".toList exampleQuoteText = some idx ∧
          (execPat yearlyPat ((exampleQuoteText.drop idx).take 500)).isSome = true) := by
  refine ⟨by simp [comprehensiveNames], ?_⟩
  exact extract_emits_iff_yearly_found exampleQuoteText "Comprehensive".toList
    comprehensiveNames (by simp [comprehensiveNames])

set_option maxRecDepth 8000 in
/-- Claim C6 counterexample: this page text contains "Comprehensive"
followed inside the 500-character extraction window by
"$120.50/Yearly", "$10.50/Monthly", "($120.50 over 12 months)" and
"Save $15.00", yet extraction reports yearlyPrice "$9.00" — the first
yearly-price match in the window — not "$120.50". -/
theorem stray_yearly_price_changes_extraction :
    indexOfSub "Comprehensive".toList strayQuoteText = some 0
    ∧ (indexOfSub "$120.50/Yearly".toList strayQuoteText).isSome = true
    ∧ (indexOfSub "$10.50/Monthly".toList strayQuoteText).isSome = true
    ∧ (indexOfSub "($120.50 over 12 months)".toList strayQuoteText).isSome = true
    ∧ (indexOfSub "Save $15.00".toList strayQuoteText).isSome = true
    ∧ strayQuoteText.length ≤ 500
    ∧ (extractProductsFromText strayQuoteText comprehensiveNames).map
        ProductQuote.yearlyPrice = ["$9.00".toList] := by
  refine ⟨by decide, by decide, by decide, by decide, by decide, by decide, by decide⟩

/-- Claim C6 amended: when the four price patterns' first matches in
the window at "Comprehensive" capture 120.50, 10.50, 120.50 and 15.00
respectively, extraction yields exactly the quote of the spec's test
vector as its first comprehensive quote. -/
theorem comprehensive_example_extraction (text : List Char) (idx : Nat)
    (hidx : indexOfSub "Comprehensive".toList text = some idx)
    (hy : execPat yearlyPat ((text.drop idx).take 500) = some "120.50".toList)
    (hm : execPat monthlyPat ((text.drop idx).take 500) = some "10.50".toList)
    (ht : execPat totalPat ((text.drop idx).take 500) = some "120.50".toList)
    (hs : execPat savingPat ((text.drop idx).take 500) = some "15.00".toList) :
    (extractProductsFromText text comprehensiveNames).head? = some
      { name := "Comprehensive".toList
        yearlyPrice := "$120.50".toList
        monthlyPrice := "$10.50".toList
        totalOver12Months := "$120.50".toList
        yearlySaving := some "$15.00".toList
        features := [] } := by
  have h1 : extractOne text "Comprehensive".toList = some
      { name := "Comprehensive".toList
        yearlyPrice := "$120.50".toList
        monthlyPrice := "$10.50".toList
        totalOver12Months := "$120.50".toList
        yearlySaving := some "$15.00".toList
        features := [] } := by
    unfold extractOne
    rw [hidx]
    simp only [hy, hm, ht, hs]
    rfl
  unfold extractProductsFromText comprehensiveNames
  rw [List.filterMap_cons, h1]
  rfl

set_option maxRecDepth 8000 in
/-- Claim C6 witness: the amended statement applied to the concrete
example text realising the spec's test vector. -/
theorem comprehensive_example_extraction_witness :
    indexOfSub "Comprehensive".toList exampleQuoteText = some 0
    ∧ execPat yearlyPat ((exampleQuoteText.drop 0).take 500) = some "120.50".toList
    ∧ execPat monthlyPat ((exampleQuoteText.drop 0).take 500) = some "10.50".toList
    ∧ execPat totalPat ((exampleQuoteText.drop 0).take 500) = some "120.50".toList
    ∧ execPat savingPat ((exampleQuoteText.drop 0).take 500) = some "15.00".toList
    ∧ (extractProductsFromText exampleQuoteText comprehensiveNames).head? = some
      { name := "Comprehensive".toList
        yearlyPrice := "$120.50".toList
        monthlyPrice := "$10.50".toList
        totalOver12Months := "$120.50".toList
        yearlySaving := some "$15.00".toList
        features := [] } := by
  refine ⟨by decide, by decide, by decide, by decide, by decide, ?_⟩
  exact comprehensive_example_extraction exampleQuoteText 0 (by decide) (by decide)
    (by decide) (by decide) (by decide)

end Racv
